import Mathlib

/-!
# CAN logger (`cand.c`): shallow embedding and verified properties

The program is a single `main`: it selects an interface name, opens a raw CAN
socket and an output file, then loops forever on `recvmsg`.  Every received
frame is turned into one 16-byte record; two marker records (`PID_START_TIME`,
`PID_DROP`) are synthesised from the ancillary control messages.

Modelling conventions

* `uint32_t` / `__u32` values are natural numbers reduced `% 2^32` at every
  place the C code stores into such a field.
* `long` values (`tv_sec`, `tv_usec`) are integers; C division truncates
  towards zero, hence `Int.tdiv`.
* The observable behaviour of the loop is the sequence of calls it makes on the
  output stream: `fwrite` of a record (labelled with the call site that issued
  it) and `fflush`.  The values returned by `fwrite` and `fflush` are discarded
  by the program, so they do not feed back into the model.
* `struct timeval tv` is declared without initialiser inside the loop body; the
  model keeps its contents from one iteration to the next and starts from an
  arbitrary value `tv0`.
* Byte images (`memcpy` of the `timeval`, the `__u32` store into `rec.data`)
  are given for a little-endian LP64 host.
-/

namespace Cand

/-! ## Constants -/

/-- Socket level of the generic socket options (`<asm-generic/socket.h>`). -/
def SOL_SOCKET : Int := 1
/-- Control message type carrying the receive time stamp. -/
def SO_TIMESTAMP : Int := 29
/-- Control message type carrying the cumulative receive queue overflow count. -/
def SO_RXQ_OVFL : Int := 40

/-- Name of the interface that stands for every CAN interface. -/
def ANYDEV : String := "any"

/-- Marker identifier, payload is the `struct timeval` of the first time stamp. -/
def PID_START_TIME : Nat := 0x8000
/-- Marker identifier, payload is the number of dropped frames. -/
def PID_DROP : Nat := 0x8001

/-- Modulus of the 32-bit unsigned types. -/
def U32 : Nat := 4294967296

/-! ## Data model -/

/-- The C `struct timeval`. -/
structure Timeval where
  tv_sec : Int
  tv_usec : Int
deriving DecidableEq, Repr

/-- The C `struct rec`: one 16-byte log record. -/
structure Rec where
  ts : Nat
  can_id : Nat
  data : List Nat
deriving DecidableEq, Repr

/-- The fields of `struct can_frame` the program reads; `data` holds the eight
data bytes. -/
structure CanFrame where
  can_id : Nat
  data : List Nat
deriving DecidableEq, Repr

/-- One ancillary control message.  `CMSG_DATA` is read either as a
`struct timeval` or as a `__u32`, depending on the message type; both readings
are carried. -/
structure Cmsg where
  cmsg_level : Int
  cmsg_type : Int
  tvData : Timeval
  u32Data : Nat
deriving DecidableEq, Repr

/-- What one call of `recvmsg` delivers: its return value, the control
messages and the frame stored through the iovec. -/
structure RecvResult where
  nbytes : Int
  cmsgs : List Cmsg
  frame : CanFrame
deriving DecidableEq, Repr

/-- The three `fwrite` call sites of the receive loop. -/
inductive Site where
  | start
  | drop
  | data
deriving DecidableEq, Repr

/-- A call made on the output stream. -/
inductive Event where
  | write (site : Site) (r : Rec)
  | flush
deriving DecidableEq, Repr

/-- The local variables of `main` that live across the receive loop. -/
structure State where
  first : Int
  last_drcnt : Nat
  last_tv : Int
  tv : Timeval
deriving DecidableEq, Repr

/-- Values of the locals when the loop is entered: `first = 1`,
`last_drcnt = 0`, `last_tv = 0`, and `tv` not initialised. -/
def initState (tv0 : Timeval) : State :=
  { first := 1, last_drcnt := 0, last_tv := 0, tv := tv0 }

/-! ## Record construction -/

/-- The expression `(tv.tv_usec / 1000) + (tv.tv_sec * 1000)` stored into the
`uint32_t` field `rec.ts`. -/
def tsOf (tv : Timeval) : Nat :=
  ((tv.tv_usec.tdiv 1000 + tv.tv_sec * 1000) % 4294967296).toNat

/-- The `k` low-order bytes of `n`, least significant first. -/
def leBytes : Nat → Nat → List Nat
  | 0, _ => []
  | k + 1, n => n % 256 :: leBytes k (n / 256)

/-- Value of a little-endian byte string. -/
def leValue : List Nat → Nat
  | [] => 0
  | b :: bs => b + 256 * leValue bs

/-- The first eight bytes of the `struct timeval` object, as copied by
`memcpy(rec.data, &tv, 8)`: the 64-bit `tv_sec`. -/
def timevalBytes (tv : Timeval) : List Nat :=
  leBytes 8 (tv.tv_sec % 18446744073709551616).toNat

/-- The payload built by `memset(rec.data, 0, 8)` followed by the `__u32`
store of `n` into the first four bytes. -/
def dropPayload (n : Nat) : List Nat :=
  leBytes 4 n ++ [0, 0, 0, 0]

/-- Conversion of a `long` to `int` on assignment. -/
def toInt32 (x : Int) : Int :=
  (x + 2147483648) % 4294967296 - 2147483648

/-! ## The receive loop -/

/-- Body of the control message loop for one message. -/
def cmsgBody (st : State) (c : Cmsg) : State × List Event :=
  if c.cmsg_type = SO_TIMESTAMP then
    let st1 : State := { st with tv := c.tvData }
    if st1.first ≠ 0 then
      ({ st1 with first := 0 },
        [Event.write Site.start ⟨tsOf st1.tv, PID_START_TIME, timevalBytes st1.tv⟩])
    else (st1, [])
  else if c.cmsg_type = SO_RXQ_OVFL then
    let dropcnt : Nat := c.u32Data % U32
    if st.last_drcnt ≠ dropcnt then
      ({ st with last_drcnt := st.last_drcnt },
        [Event.write Site.drop
            ⟨tsOf st.tv, PID_DROP, dropPayload ((dropcnt + U32 - st.last_drcnt) % U32)⟩,
         Event.flush])
    else (st, [])
  else (st, [])

/-- The loop `for (cmsg = CMSG_FIRSTHDR; cmsg && cmsg->cmsg_level == SOL_SOCKET;
cmsg = CMSG_NXTHDR)`. -/
def cmsgLoop : State → List Cmsg → State × List Event
  | st, [] => (st, [])
  | st, c :: cs =>
    if c.cmsg_level = SOL_SOCKET then
      let r1 := cmsgBody st c
      let r2 := cmsgLoop r1.1 cs
      (r2.1, r1.2 ++ r2.2)
    else (st, [])

/-- One pass through the body of `while (1)` after a successful `recvmsg`:
the control message loop, the data record, the guarded flush. -/
def iteration (st : State) (r : RecvResult) : State × List Event :=
  let c := cmsgLoop st r.cmsgs
  let st1 := c.1
  let rec_ : Rec := ⟨tsOf st1.tv, r.frame.can_id, r.frame.data⟩
  if st1.last_tv ≠ 0 ∧ st1.tv.tv_sec - st1.last_tv > 2 then
    ({ st1 with last_tv := toInt32 st1.tv.tv_sec },
      c.2 ++ [Event.write Site.data rec_, Event.flush])
  else (st1, c.2 ++ [Event.write Site.data rec_])

/-- Result of running the loop on a finite sequence of `recvmsg` results. -/
structure LoopResult where
  final : State
  trace : List Event
  /-- Value returned by `main` once the loop has been left; `none` while the
  program is still blocked in `recvmsg`. -/
  status : Option Int
  /-- Number of `recvmsg` calls that returned. -/
  calls : Nat
deriving DecidableEq, Repr

/-- The loop `while (1)`: it is left by `break` on `nbytes < 0`, after which
`main` executes `return 0`. -/
def mainLoop : State → List RecvResult → LoopResult
  | st, [] => { final := st, trace := [], status := none, calls := 0 }
  | st, r :: rs =>
    if r.nbytes < 0 then
      { final := st, trace := [], status := some 0, calls := 1 }
    else
      let it := iteration st r
      let rest := mainLoop it.1 rs
      { final := rest.final, trace := it.2 ++ rest.trace,
        status := rest.status, calls := rest.calls + 1 }

/-! ## Start-up -/

/-- The statements `char *ifname = "can0"; if (ac > 1) ifname = av[0];` with
`ac = av.length`. -/
def selectIfname (av : List String) : String :=
  if av.length > 1 then av.getD 0 "" else "can0"

/-- The environment `main` runs in. -/
structure Env where
  /-- `time()` returned `(time_t)-1`. -/
  time_fails : Bool
  /-- Return value of `socket()`. -/
  socket_fd : Int
  /-- Interface index found by `ioctl(SIOCGIFINDEX)`, `none` when it fails. -/
  ifindex : String → Option Int
  /-- Return value of `bind()`. -/
  bind_ret : Int
  /-- `fopen()` returned `NULL`. -/
  fopen_fails : Bool
  /-- Contents of the uninitialised `tv`. -/
  tv0 : Timeval
  /-- Results of the successive `recvmsg` calls. -/
  recvs : List RecvResult

/-- What a run of `main` shows. -/
structure MainResult where
  ifname : String
  /-- Value stored in `addr.can_ifindex`, when that statement is reached. -/
  can_ifindex : Option Int
  trace : List Event
  status : Option Int
deriving DecidableEq, Repr

/-- The function `main`. -/
def main (av : List String) (env : Env) : MainResult :=
  let ifname := selectIfname av
  if env.time_fails then ⟨ifname, none, [], some 1⟩
  else if env.socket_fd < 0 then ⟨ifname, none, [], some 1⟩
  else
    let idx : Option Int := if ANYDEV ≠ ifname then env.ifindex ifname else some 0
    match idx with
    | none => ⟨ifname, none, [], some 1⟩
    | some i =>
      if env.bind_ret < 0 then ⟨ifname, some i, [], some 1⟩
      else if env.fopen_fails then ⟨ifname, some i, [], some 1⟩
      else
        let out := mainLoop (initState env.tv0) env.recvs
        ⟨ifname, some i, out.trace, out.status⟩

/-! ## Projections of a trace -/

/-- The records written from call site `s`, in order. -/
def recordsAt (s : Site) : List Event → List Rec
  | [] => []
  | Event.write s1 r :: es => if s1 = s then r :: recordsAt s es else recordsAt s es
  | Event.flush :: es => recordsAt s es

/-- Every record written, in order. -/
def records : List Event → List Rec
  | [] => []
  | Event.write _ r :: es => r :: records es
  | Event.flush :: es => records es

/-! ## What a run observes

The following functions read off, from the inputs of a run, the quantities the
statements below speak about.  They are written with list combinators and do
not refer to the loop. -/

/-- The control messages the loop walks over: the leading messages at socket
level. -/
def seenCmsgs (cs : List Cmsg) : List Cmsg :=
  cs.takeWhile (fun c => decide (c.cmsg_level = SOL_SOCKET))

/-- The overflow counter samples among the control messages walked over, as
32-bit values. -/
def dropSamples (cs : List Cmsg) : List Nat :=
  ((seenCmsgs cs).filter (fun c => decide (c.cmsg_type = SO_RXQ_OVFL))).map
    (fun c => c.u32Data % U32)

/-- The time stamps among the control messages walked over. -/
def timestampsIn (cs : List Cmsg) : List Timeval :=
  ((seenCmsgs cs).filter (fun c => decide (c.cmsg_type = SO_TIMESTAMP))).map (fun c => c.tvData)

/-- The successful receives of a run: those before the first failing one. -/
def received (rs : List RecvResult) : List RecvResult :=
  rs.takeWhile (fun r => decide (0 ≤ r.nbytes))

/-- The overflow counter samples of a run, in order of arrival. -/
def observedSamples : List RecvResult → List Nat
  | [] => []
  | r :: rs => if r.nbytes < 0 then [] else dropSamples r.cmsgs ++ observedSamples rs

/-- The time stamps delivered during a run, in order of arrival. -/
def observedTimestamps : List RecvResult → List Timeval
  | [] => []
  | r :: rs => if r.nbytes < 0 then [] else timestampsIn r.cmsgs ++ observedTimestamps rs

/-- The most recent time stamp once the control messages `cs` have been walked
over, `tv` when they carry none. -/
def latestTv (tv : Timeval) (cs : List Cmsg) : Timeval :=
  (timestampsIn cs).foldl (fun _ t => t) tv

/-- Number of START_TIME markers the loop may still write: 1 while `first` is
set, 0 afterwards. -/
def startFlag (st : State) : Nat := if st.first ≠ 0 then 1 else 0

/-- The loss accounting of the specification, section 4.1: start from
`last_observed`; for each sample emit `(sample - last_observed) mod 2^32` iff the
sample differs from `last_observed`, then set `last_observed` to the sample. -/
def refDropDeltas : Nat → List Nat → List Nat
  | _, [] => []
  | last, s :: ss =>
    if s ≠ last then (s + U32 - last) % U32 :: refDropDeltas s ss else refDropDeltas s ss

/-- Output discipline: a flush follows every record written as a DROP marker
and occurs nowhere else. -/
inductive DropFlushed : List Event → Prop where
  | nil : DropFlushed []
  | plain (s : Site) (r : Rec) (t : List Event) :
      s ≠ Site.drop → DropFlushed t → DropFlushed (Event.write s r :: t)
  | drop (r : Rec) (t : List Event) :
      DropFlushed t → DropFlushed (Event.write Site.drop r :: Event.flush :: t)

/-! ## Concrete inputs -/

/-- A socket-level time stamp message. -/
def tsMsg (sec usec : Int) : Cmsg :=
  { cmsg_level := SOL_SOCKET, cmsg_type := SO_TIMESTAMP, tvData := ⟨sec, usec⟩, u32Data := 0 }

/-- A socket-level overflow counter message. -/
def ovflMsg (n : Nat) : Cmsg :=
  { cmsg_level := SOL_SOCKET, cmsg_type := SO_RXQ_OVFL, tvData := ⟨0, 0⟩, u32Data := n }

/-- Frame A. -/
def frameA : CanFrame := ⟨0x101, [1, 2, 3, 4, 5, 6, 7, 8]⟩
/-- Frame B. -/
def frameB : CanFrame := ⟨0x102, [11, 12, 13, 14, 15, 16, 17, 18]⟩
/-- Frame C. -/
def frameC : CanFrame := ⟨0x103, [21, 22, 23, 24, 25, 26, 27, 28]⟩

/-- The scenario of section 8 of the specification: A at 1000 ms, B at 1200 ms
with counter 5, C at 3400 ms with counter 5. -/
def scenarioRun : List RecvResult :=
  [⟨16, [tsMsg 1 0], frameA⟩,
   ⟨16, [tsMsg 1 200000, ovflMsg 5], frameB⟩,
   ⟨16, [tsMsg 3 400000, ovflMsg 5], frameC⟩]

/-- Two frames received ten seconds apart, each with its time stamp. -/
def spanRun : List RecvResult :=
  [⟨16, [tsMsg 10 0], frameA⟩, ⟨16, [tsMsg 20 0], frameB⟩]

/-- Two frames received without any ancillary data. -/
def bareRun : List RecvResult :=
  [⟨16, [], frameA⟩, ⟨16, [], frameB⟩]

/-- A failing `recvmsg`. -/
def recvError : RecvResult := ⟨-1, [], ⟨0, []⟩⟩

/-- An environment in which start-up succeeds. -/
def okEnv (rs : List RecvResult) : Env :=
  { time_fails := false, socket_fd := 3, ifindex := fun _ => some 2, bind_ret := 0,
    fopen_fails := false, tv0 := ⟨0, 0⟩, recvs := rs }

/-! ## Auxiliary lemmas -/

theorem types_ne : SO_TIMESTAMP ≠ SO_RXQ_OVFL := by decide

theorem cmsgBody_last_drcnt (st : State) (c : Cmsg) :
    (cmsgBody st c).1.last_drcnt = st.last_drcnt := by
  unfold cmsgBody
  dsimp only
  split_ifs <;> rfl

theorem cmsgBody_last_tv (st : State) (c : Cmsg) :
    (cmsgBody st c).1.last_tv = st.last_tv := by
  unfold cmsgBody
  dsimp only
  split_ifs <;> rfl

theorem cmsgLoop_last_drcnt (st : State) (cs : List Cmsg) :
    (cmsgLoop st cs).1.last_drcnt = st.last_drcnt := by
  induction cs generalizing st with
  | nil => rfl
  | cons c cs ih =>
    unfold cmsgLoop
    split_ifs
    · simp only [ih, cmsgBody_last_drcnt]
    · rfl

theorem cmsgLoop_last_tv (st : State) (cs : List Cmsg) :
    (cmsgLoop st cs).1.last_tv = st.last_tv := by
  induction cs generalizing st with
  | nil => rfl
  | cons c cs ih =>
    unfold cmsgLoop
    split_ifs
    · simp only [ih, cmsgBody_last_tv]
    · rfl

theorem iteration_of_last_tv_zero (st : State) (r : RecvResult) (h : st.last_tv = 0) :
    iteration st r = ((cmsgLoop st r.cmsgs).1,
      (cmsgLoop st r.cmsgs).2 ++
        [Event.write Site.data
          ⟨tsOf (cmsgLoop st r.cmsgs).1.tv, r.frame.can_id, r.frame.data⟩]) := by
  unfold iteration
  simp [cmsgLoop_last_tv, h]

theorem iteration_last_tv (st : State) (r : RecvResult) (h : st.last_tv = 0) :
    (iteration st r).1.last_tv = 0 := by
  rw [iteration_of_last_tv_zero st r h]
  simp [cmsgLoop_last_tv, h]

theorem iteration_last_drcnt (st : State) (r : RecvResult) :
    (iteration st r).1.last_drcnt = st.last_drcnt := by
  unfold iteration
  dsimp only
  split_ifs <;> simp [cmsgLoop_last_drcnt]

theorem mainLoop_last_drcnt (st : State) (rs : List RecvResult) :
    (mainLoop st rs).final.last_drcnt = st.last_drcnt := by
  induction rs generalizing st with
  | nil => rfl
  | cons r rs ih =>
    unfold mainLoop
    split_ifs
    · rfl
    · simp only [ih, iteration_last_drcnt]

theorem mainLoop_last_tv (st : State) (rs : List RecvResult) (h : st.last_tv = 0) :
    (mainLoop st rs).final.last_tv = 0 := by
  induction rs generalizing st with
  | nil => exact h
  | cons r rs ih =>
    unfold mainLoop
    split_ifs
    · exact h
    · exact ih _ (iteration_last_tv st r h)

theorem recordsAt_append (s : Site) (a b : List Event) :
    recordsAt s (a ++ b) = recordsAt s a ++ recordsAt s b := by
  induction a with
  | nil => rfl
  | cons e a ih =>
    cases e with
    | write s1 r =>
      by_cases h : s1 = s <;> simp [recordsAt, h, ih]
    | flush => simpa [recordsAt] using ih

theorem records_append (a b : List Event) :
    records (a ++ b) = records a ++ records b := by
  induction a with
  | nil => rfl
  | cons e a ih =>
    cases e with
    | write s1 r => simp [records, ih]
    | flush => simpa [records] using ih

theorem dropSamples_nil : dropSamples [] = [] := rfl

theorem dropSamples_cons_seen (c : Cmsg) (cs : List Cmsg) (h : c.cmsg_level = SOL_SOCKET) :
    dropSamples (c :: cs) =
      (if c.cmsg_type = SO_RXQ_OVFL then [c.u32Data % U32] else []) ++ dropSamples cs := by
  unfold dropSamples seenCmsgs
  by_cases h2 : c.cmsg_type = SO_RXQ_OVFL <;> simp [List.takeWhile, List.filter, h, h2]

theorem dropSamples_cons_unseen (c : Cmsg) (cs : List Cmsg) (h : c.cmsg_level ≠ SOL_SOCKET) :
    dropSamples (c :: cs) = [] := by
  unfold dropSamples seenCmsgs
  simp [List.takeWhile, h]

theorem cmsgBody_drop_records (st : State) (c : Cmsg) :
    recordsAt Site.drop (cmsgBody st c).2 =
      if c.cmsg_type = SO_RXQ_OVFL ∧ c.u32Data % U32 ≠ st.last_drcnt then
        [⟨tsOf st.tv, PID_DROP, dropPayload ((c.u32Data % U32 + U32 - st.last_drcnt) % U32)⟩]
      else [] := by
  unfold cmsgBody
  dsimp only
  by_cases h1 : c.cmsg_type = SO_TIMESTAMP
  · have h2 : c.cmsg_type ≠ SO_RXQ_OVFL := by rw [h1]; exact types_ne
    by_cases h3 : st.first = 0 <;> simp [h1, types_ne, h3, recordsAt]
  · by_cases h2 : c.cmsg_type = SO_RXQ_OVFL
    · by_cases h3 : st.last_drcnt = c.u32Data % U32
      · simp [h1, h2, h3, recordsAt]
      · have h4 : ¬ c.u32Data % U32 = st.last_drcnt := fun h => h3 h.symm
        simp [h1, h2, h3, h4, recordsAt]
    · simp [h1, h2, recordsAt]

theorem cmsgLoop_drop_records (st : State) (cs : List Cmsg) :
    (recordsAt Site.drop (cmsgLoop st cs).2).map (fun r => (r.can_id, r.data)) =
      ((dropSamples cs).filter (fun s => decide (s ≠ st.last_drcnt))).map
        (fun s => (PID_DROP, dropPayload ((s + U32 - st.last_drcnt) % U32))) := by
  induction cs generalizing st with
  | nil => rfl
  | cons c cs ih =>
    unfold cmsgLoop
    by_cases h : c.cmsg_level = SOL_SOCKET
    · simp only [h, if_true, recordsAt_append, List.map_append, ih, cmsgBody_last_drcnt,
        dropSamples_cons_seen c cs h, List.filter_append, cmsgBody_drop_records]
      congr 1
      by_cases h2 : c.cmsg_type = SO_RXQ_OVFL
      · by_cases h3 : c.u32Data % U32 = st.last_drcnt <;> simp [h2, h3, List.filter]
      · simp [h2]
    · simp [h, dropSamples_cons_unseen c cs h, recordsAt]

theorem iteration_drop_records (st : State) (r : RecvResult) :
    (recordsAt Site.drop (iteration st r).2).map (fun r => (r.can_id, r.data)) =
      ((dropSamples r.cmsgs).filter (fun s => decide (s ≠ st.last_drcnt))).map
        (fun s => (PID_DROP, dropPayload ((s + U32 - st.last_drcnt) % U32))) := by
  rw [← cmsgLoop_drop_records]
  unfold iteration
  dsimp only
  split_ifs <;> simp [recordsAt_append, recordsAt]

theorem mainLoop_drop_records (st : State) (rs : List RecvResult) :
    (recordsAt Site.drop (mainLoop st rs).trace).map (fun r => (r.can_id, r.data)) =
      ((observedSamples rs).filter (fun s => decide (s ≠ st.last_drcnt))).map
        (fun s => (PID_DROP, dropPayload ((s + U32 - st.last_drcnt) % U32))) := by
  induction rs generalizing st with
  | nil => rfl
  | cons r rs ih =>
    unfold mainLoop observedSamples
    by_cases h : r.nbytes < 0
    · simp [h, recordsAt]
    · simp only [h, if_false, recordsAt_append, List.map_append, ih, iteration_last_drcnt,
        iteration_drop_records, List.filter_append]

theorem dropSamples_lt (cs : List Cmsg) : ∀ s ∈ dropSamples cs, s < U32 := by
  intro s hs
  unfold dropSamples at hs
  simp only [List.mem_map] at hs
  obtain ⟨c, _, rfl⟩ := hs
  exact Nat.mod_lt _ (by decide)

theorem observedSamples_lt (rs : List RecvResult) : ∀ s ∈ observedSamples rs, s < U32 := by
  induction rs with
  | nil => intro s hs; simp [observedSamples] at hs
  | cons r rs ih =>
    intro s hs
    unfold observedSamples at hs
    split_ifs at hs
    · simp at hs
    · rcases List.mem_append.1 hs with h | h
      · exact dropSamples_lt _ s h
      · exact ih s h

theorem leValue_leBytes (k n : Nat) : leValue (leBytes k n) = n % 256 ^ k := by
  induction k generalizing n with
  | zero => simp [leBytes, leValue, Nat.mod_one]
  | succ k ih =>
    simp only [leBytes, leValue, ih]
    rw [pow_succ, Nat.mul_comm (256 ^ k) 256, Nat.mod_mul]

theorem types_ne2 : SO_RXQ_OVFL ≠ SO_TIMESTAMP := by decide

theorem cmsgBody_start_count (st : State) (c : Cmsg) :
    (recordsAt Site.start (cmsgBody st c).2).length + startFlag (cmsgBody st c).1 =
      startFlag st := by
  unfold cmsgBody startFlag
  dsimp only
  by_cases h1 : c.cmsg_type = SO_TIMESTAMP
  · by_cases h3 : st.first = 0 <;> simp [h1, h3, recordsAt]
  · by_cases h2 : c.cmsg_type = SO_RXQ_OVFL
    · by_cases h3 : st.last_drcnt = c.u32Data % U32 <;>
        simp [h2, types_ne2, h3, recordsAt]
    · simp [h1, h2, recordsAt]

theorem cmsgLoop_start_count (st : State) (cs : List Cmsg) :
    (recordsAt Site.start (cmsgLoop st cs).2).length + startFlag (cmsgLoop st cs).1 =
      startFlag st := by
  induction cs generalizing st with
  | nil => simp [cmsgLoop, recordsAt]
  | cons c cs ih =>
    unfold cmsgLoop
    by_cases h : c.cmsg_level = SOL_SOCKET
    · simp only [h, if_true, recordsAt_append, List.length_append]
      have h1 := ih (cmsgBody st c).1
      have h2 := cmsgBody_start_count st c
      omega
    · simp [h, recordsAt]

theorem startFlag_last_tv (st : State) (x : Int) :
    startFlag { st with last_tv := x } = startFlag st := rfl

theorem iteration_start_count (st : State) (r : RecvResult) :
    (recordsAt Site.start (iteration st r).2).length + startFlag (iteration st r).1 =
      startFlag st := by
  have h := cmsgLoop_start_count st r.cmsgs
  unfold iteration
  dsimp only
  split_ifs <;> simpa [recordsAt_append, recordsAt, startFlag] using h

theorem mainLoop_start_count (st : State) (rs : List RecvResult) :
    (recordsAt Site.start (mainLoop st rs).trace).length + startFlag (mainLoop st rs).final =
      startFlag st := by
  induction rs generalizing st with
  | nil => simp [mainLoop, recordsAt]
  | cons r rs ih =>
    unfold mainLoop
    by_cases h : r.nbytes < 0
    · simp [h, recordsAt]
    · simp only [h, if_false, recordsAt_append, List.length_append]
      have h1 := ih (iteration st r).1
      have h2 := iteration_start_count st r
      omega

theorem cmsgBody_start_id (st : State) (c : Cmsg) :
    ∀ r ∈ recordsAt Site.start (cmsgBody st c).2, r.can_id = PID_START_TIME := by
  unfold cmsgBody
  dsimp only
  by_cases h1 : c.cmsg_type = SO_TIMESTAMP
  · by_cases h3 : st.first = 0 <;> simp [h1, h3, recordsAt]
  · by_cases h2 : c.cmsg_type = SO_RXQ_OVFL
    · by_cases h3 : st.last_drcnt = c.u32Data % U32 <;>
        simp [h2, types_ne2, h3, recordsAt]
    · simp [h1, h2, recordsAt]

theorem cmsgLoop_start_id (st : State) (cs : List Cmsg) :
    ∀ r ∈ recordsAt Site.start (cmsgLoop st cs).2, r.can_id = PID_START_TIME := by
  induction cs generalizing st with
  | nil => simp [cmsgLoop, recordsAt]
  | cons c cs ih =>
    unfold cmsgLoop
    by_cases h : c.cmsg_level = SOL_SOCKET
    · simp only [h, if_true, recordsAt_append, List.mem_append]
      rintro r (hr | hr)
      · exact cmsgBody_start_id st c r hr
      · exact ih _ r hr
    · simp [h, recordsAt]

theorem iteration_start_records (st : State) (r : RecvResult) :
    recordsAt Site.start (iteration st r).2 = recordsAt Site.start (cmsgLoop st r.cmsgs).2 := by
  unfold iteration
  dsimp only
  split_ifs <;> simp [recordsAt_append, recordsAt]

theorem mainLoop_start_id (st : State) (rs : List RecvResult) :
    ∀ r ∈ recordsAt Site.start (mainLoop st rs).trace, r.can_id = PID_START_TIME := by
  induction rs generalizing st with
  | nil => simp [mainLoop, recordsAt]
  | cons r rs ih =>
    unfold mainLoop
    by_cases h : r.nbytes < 0
    · simp [h, recordsAt]
    · simp only [h, if_false, recordsAt_append, List.mem_append, iteration_start_records]
      rintro x (hx | hx)
      · exact cmsgLoop_start_id st _ x hx
      · exact ih _ x hx

/-- Control messages that leave the state untouched and write nothing when the
stored drop count is `0`. -/
theorem cmsgLoop_skip (st : State) (pre rest : List Cmsg) (h0 : st.last_drcnt = 0)
    (hpre : ∀ d ∈ pre, d.cmsg_level = SOL_SOCKET ∧ d.cmsg_type ≠ SO_TIMESTAMP ∧
      (d.cmsg_type = SO_RXQ_OVFL → d.u32Data % U32 = 0)) :
    cmsgLoop st (pre ++ rest) = cmsgLoop st rest := by
  induction pre with
  | nil => rfl
  | cons d pre ih =>
    have hd := hpre d (List.mem_cons_self _ _)
    have hb : cmsgBody st d = (st, []) := by
      unfold cmsgBody
      dsimp only
      by_cases h2 : d.cmsg_type = SO_RXQ_OVFL
      · simp [h2, types_ne2, h0, hd.2.2 h2]
      · simp [hd.2.1, h2]
    rw [List.cons_append]
    conv_lhs => unfold cmsgLoop
    simp only [hd.1, if_true, hb, List.nil_append]
    exact ih (fun x hx => hpre x (List.mem_cons_of_mem _ hx))

theorem cmsgLoop_timestamp_first (st : State) (c : Cmsg) (post : List Cmsg)
    (hf : st.first ≠ 0) (hl : c.cmsg_level = SOL_SOCKET) (ht : c.cmsg_type = SO_TIMESTAMP) :
    (cmsgLoop st (c :: post)).2 =
      Event.write Site.start ⟨tsOf c.tvData, PID_START_TIME, timevalBytes c.tvData⟩ ::
        (cmsgLoop { st with tv := c.tvData, first := 0 } post).2 := by
  have hb : cmsgBody st c = ({ st with tv := c.tvData, first := 0 },
      [Event.write Site.start ⟨tsOf c.tvData, PID_START_TIME, timevalBytes c.tvData⟩]) := by
    unfold cmsgBody
    dsimp only
    simp [ht, hf]
  conv_lhs => unfold cmsgLoop
  simp only [hl, if_true, hb, List.singleton_append]

theorem iteration_head (st : State) (r : RecvResult) (e : Event) (l : List Event)
    (h : (cmsgLoop st r.cmsgs).2 = e :: l) : (iteration st r).2.head? = some e := by
  unfold iteration
  dsimp only
  split_ifs <;> simp [h]

theorem mainLoop_head (st : State) (r : RecvResult) (rest : List RecvResult) (e : Event)
    (hr : 0 ≤ r.nbytes) (h : (iteration st r).2.head? = some e) :
    (mainLoop st (r :: rest)).trace.head? = some e := by
  unfold mainLoop
  have hn : ¬ r.nbytes < 0 := not_lt.2 hr
  simp only [hn, if_false]
  cases hit : (iteration st r).2 with
  | nil => rw [hit] at h; simp at h
  | cons a l => rw [hit] at h; simpa using h

theorem recordsAt_length_pos_of_head (s : Site) (r : Rec) (t : List Event)
    (h : t.head? = some (Event.write s r)) : 0 < (recordsAt s t).length := by
  cases t with
  | nil => simp at h
  | cons e t =>
    simp only [List.head?_cons, Option.some.injEq] at h
    subst h
    simp [recordsAt]

theorem DropFlushed.append {a b : List Event} (ha : DropFlushed a) (hb : DropFlushed b) :
    DropFlushed (a ++ b) := by
  induction ha with
  | nil => simpa using hb
  | plain s r t hs _ ih => exact DropFlushed.plain s r _ hs ih
  | drop r t _ ih => exact DropFlushed.drop r _ ih

theorem DropFlushed.head_ne_flush {t : List Event} (h : DropFlushed t) :
    t.head? ≠ some Event.flush := by
  cases h <;> simp

theorem DropFlushed.after_write {t : List Event} (h : DropFlushed t) :
    ∀ (pre post : List Event) (s : Site) (r : Rec), t = pre ++ Event.write s r :: post →
      (post.head? = some Event.flush ↔ s = Site.drop) := by
  induction h with
  | nil => intro pre post s r h; simp at h
  | plain s1 r1 t hs ht ih =>
    intro pre post s r h
    cases pre with
    | nil =>
      simp only [List.nil_append, List.cons.injEq, Event.write.injEq] at h
      obtain ⟨⟨rfl, rfl⟩, rfl⟩ := h
      constructor
      · intro hf; exact absurd hf ht.head_ne_flush
      · intro hd; exact absurd hd hs
    | cons e pre =>
      simp only [List.cons_append, List.cons.injEq] at h
      exact ih pre post s r h.2
  | drop r1 t ht ih =>
    intro pre post s r h
    cases pre with
    | nil =>
      simp only [List.nil_append, List.cons.injEq, Event.write.injEq] at h
      obtain ⟨⟨rfl, rfl⟩, rfl⟩ := h
      simp
    | cons e pre =>
      cases pre with
      | nil =>
        simp at h
      | cons e2 pre =>
        simp only [List.cons_append, List.cons.injEq] at h
        exact ih pre post s r h.2.2

theorem DropFlushed.before_flush {t : List Event} (h : DropFlushed t) :
    ∀ (pre post : List Event), t = pre ++ Event.flush :: post →
      ∃ (pre1 : List Event) (r : Rec), pre = pre1 ++ [Event.write Site.drop r] := by
  induction h with
  | nil => intro pre post h; simp at h
  | plain s1 r1 t hs ht ih =>
    intro pre post h
    cases pre with
    | nil => simp at h
    | cons e pre =>
      simp only [List.cons_append, List.cons.injEq] at h
      obtain ⟨pre1, r, hp⟩ := ih pre post h.2
      exact ⟨e :: pre1, r, by simp [hp]⟩
  | drop r1 t ht ih =>
    intro pre post h
    cases pre with
    | nil => simp at h
    | cons e pre =>
      cases pre with
      | nil =>
        simp only [List.cons_append, List.nil_append, List.cons.injEq] at h
        exact ⟨[], r1, by simp [h.1]⟩
      | cons e2 pre =>
        simp only [List.cons_append, List.cons.injEq] at h
        obtain ⟨pre1, r, hp⟩ := ih pre post h.2.2
        exact ⟨e :: e2 :: pre1, r, by simp [hp]⟩

theorem cmsgBody_dropFlushed (st : State) (c : Cmsg) : DropFlushed (cmsgBody st c).2 := by
  unfold cmsgBody
  dsimp only
  split_ifs
  · exact DropFlushed.plain _ _ _ (by decide) DropFlushed.nil
  · exact DropFlushed.nil
  · exact DropFlushed.drop _ _ DropFlushed.nil
  · exact DropFlushed.nil
  · exact DropFlushed.nil

theorem cmsgLoop_dropFlushed (st : State) (cs : List Cmsg) : DropFlushed (cmsgLoop st cs).2 := by
  induction cs generalizing st with
  | nil => exact DropFlushed.nil
  | cons c cs ih =>
    unfold cmsgLoop
    split_ifs
    · exact (cmsgBody_dropFlushed st c).append (ih _)
    · exact DropFlushed.nil

theorem iteration_dropFlushed (st : State) (r : RecvResult) (h : st.last_tv = 0) :
    DropFlushed (iteration st r).2 := by
  rw [iteration_of_last_tv_zero st r h]
  exact (cmsgLoop_dropFlushed st r.cmsgs).append
    (DropFlushed.plain _ _ _ (by decide) DropFlushed.nil)

theorem mainLoop_dropFlushed (st : State) (rs : List RecvResult) (h : st.last_tv = 0) :
    DropFlushed (mainLoop st rs).trace := by
  induction rs generalizing st with
  | nil => exact DropFlushed.nil
  | cons r rs ih =>
    unfold mainLoop
    split_ifs
    · exact DropFlushed.nil
    · exact (iteration_dropFlushed st r h).append (ih _ (iteration_last_tv st r h))

theorem cmsgBody_no_data (st : State) (c : Cmsg) :
    recordsAt Site.data (cmsgBody st c).2 = [] := by
  unfold cmsgBody
  dsimp only
  split_ifs <;> simp [recordsAt]

theorem cmsgLoop_no_data (st : State) (cs : List Cmsg) :
    recordsAt Site.data (cmsgLoop st cs).2 = [] := by
  induction cs generalizing st with
  | nil => rfl
  | cons c cs ih =>
    unfold cmsgLoop
    split_ifs
    · simp [recordsAt_append, cmsgBody_no_data, ih]
    · rfl

theorem iteration_data_records (st : State) (r : RecvResult) :
    recordsAt Site.data (iteration st r).2 =
      [⟨tsOf (cmsgLoop st r.cmsgs).1.tv, r.frame.can_id, r.frame.data⟩] := by
  unfold iteration
  dsimp only
  split_ifs <;> simp [recordsAt_append, cmsgLoop_no_data, recordsAt]

theorem mainLoop_data_records (st : State) (rs : List RecvResult) :
    (recordsAt Site.data (mainLoop st rs).trace).map (fun x => (x.can_id, x.data)) =
      (received rs).map (fun r => (r.frame.can_id, r.frame.data)) := by
  induction rs generalizing st with
  | nil => rfl
  | cons r rs ih =>
    unfold mainLoop received
    by_cases h : r.nbytes < 0
    · have h2 : ¬ 0 ≤ r.nbytes := not_le.2 h
      simp [h, h2, List.takeWhile, recordsAt]
    · have h2 : 0 ≤ r.nbytes := not_lt.1 h
      simp only [h, if_false, recordsAt_append, List.map_append, iteration_data_records,
        List.takeWhile, h2, decide_True, List.map_cons, List.map_nil, List.singleton_append]
      congr 1
      exact ih _

theorem mainLoop_blocks (st : State) (rs : List RecvResult) (h : st.last_tv = 0) :
    ∃ blocks : List (List Event), (mainLoop st rs).trace = blocks.flatten ∧
      List.Forall₂ (fun r b => ∃ s : State, b = (cmsgLoop s r.cmsgs).2 ++
        [Event.write Site.data ⟨tsOf (cmsgLoop s r.cmsgs).1.tv, r.frame.can_id, r.frame.data⟩])
        (received rs) blocks := by
  induction rs generalizing st with
  | nil => exact ⟨[], rfl, List.Forall₂.nil⟩
  | cons r rs ih =>
    unfold mainLoop received
    by_cases hn : r.nbytes < 0
    · have h2 : ¬ 0 ≤ r.nbytes := not_le.2 hn
      exact ⟨[], by simp [hn], by simp [List.takeWhile, h2]⟩
    · have h2 : 0 ≤ r.nbytes := not_lt.1 hn
      obtain ⟨bs, hb1, hb2⟩ := ih (iteration st r).1 (iteration_last_tv st r h)
      refine ⟨(iteration st r).2 :: bs, by simp [hn, hb1], ?_⟩
      simp only [List.takeWhile, h2, decide_True]
      refine List.Forall₂.cons ⟨st, ?_⟩ hb2
      rw [iteration_of_last_tv_zero st r h]

theorem timestampsIn_cons_seen (c : Cmsg) (cs : List Cmsg) (h : c.cmsg_level = SOL_SOCKET) :
    timestampsIn (c :: cs) =
      (if c.cmsg_type = SO_TIMESTAMP then [c.tvData] else []) ++ timestampsIn cs := by
  unfold timestampsIn seenCmsgs
  by_cases h2 : c.cmsg_type = SO_TIMESTAMP <;> simp [List.takeWhile, List.filter, h, h2]

theorem timestampsIn_cons_unseen (c : Cmsg) (cs : List Cmsg) (h : c.cmsg_level ≠ SOL_SOCKET) :
    timestampsIn (c :: cs) = [] := by
  unfold timestampsIn seenCmsgs
  simp [List.takeWhile, h]

theorem cmsgBody_tv (st : State) (c : Cmsg) :
    (cmsgBody st c).1.tv = if c.cmsg_type = SO_TIMESTAMP then c.tvData else st.tv := by
  unfold cmsgBody
  dsimp only
  split_ifs <;> rfl

theorem cmsgBody_ts (st : State) (c : Cmsg) :
    ∀ r ∈ records (cmsgBody st c).2,
      r.ts = tsOf st.tv ∨ (c.cmsg_type = SO_TIMESTAMP ∧ r.ts = tsOf c.tvData) := by
  unfold cmsgBody
  dsimp only
  split_ifs with h1 h2 h3 h4 <;> simp [records, h1]

theorem cmsgLoop_tv_latest (st : State) (cs : List Cmsg) :
    (cmsgLoop st cs).1.tv = latestTv st.tv cs := by
  induction cs generalizing st with
  | nil => rfl
  | cons c cs ih =>
    unfold cmsgLoop latestTv
    by_cases h : c.cmsg_level = SOL_SOCKET
    · simp only [h, if_true, ih, cmsgBody_tv, timestampsIn_cons_seen c cs h, latestTv]
      by_cases h2 : c.cmsg_type = SO_TIMESTAMP <;> simp [h2]
    · simp [h, timestampsIn_cons_unseen c cs h]

theorem cmsgLoop_ts (P : Timeval → Prop) (st : State) (cs : List Cmsg) (h0 : P st.tv)
    (h : ∀ tv ∈ timestampsIn cs, P tv) :
    P (cmsgLoop st cs).1.tv ∧
      ∀ r ∈ records (cmsgLoop st cs).2, ∃ tv, P tv ∧ r.ts = tsOf tv := by
  induction cs generalizing st with
  | nil => exact ⟨h0, by simp [cmsgLoop, records]⟩
  | cons c cs ih =>
    unfold cmsgLoop
    by_cases hl : c.cmsg_level = SOL_SOCKET
    · rw [timestampsIn_cons_seen c cs hl] at h
      have hb : P (cmsgBody st c).1.tv := by
        rw [cmsgBody_tv]
        split_ifs with h2
        · exact h _ (by simp [h2])
        · exact h0
      have ih2 := ih (cmsgBody st c).1 hb (fun tv htv => h tv (List.mem_append_right _ htv))
      simp only [hl, if_true, records_append, List.mem_append]
      refine ⟨ih2.1, ?_⟩
      rintro r (hr | hr)
      · rcases cmsgBody_ts st c r hr with h3 | ⟨h3, h4⟩
        · exact ⟨_, h0, h3⟩
        · exact ⟨_, h _ (by simp [h3]), h4⟩
      · exact ih2.2 r hr
    · simpa [hl, records] using h0

theorem iteration_ts (P : Timeval → Prop) (st : State) (r : RecvResult) (h0 : P st.tv)
    (h : ∀ tv ∈ timestampsIn r.cmsgs, P tv) :
    P (iteration st r).1.tv ∧
      ∀ x ∈ records (iteration st r).2, ∃ tv, P tv ∧ x.ts = tsOf tv := by
  have hc := cmsgLoop_ts P st r.cmsgs h0 h
  unfold iteration
  dsimp only
  split_ifs
  · refine ⟨hc.1, ?_⟩
    simp only [records_append, List.mem_append, records, List.mem_singleton]
    rintro x (hx | hx)
    · exact hc.2 x hx
    · exact ⟨_, hc.1, by rw [hx]⟩
  · refine ⟨hc.1, ?_⟩
    simp only [records_append, List.mem_append, records, List.mem_singleton]
    rintro x (hx | hx)
    · exact hc.2 x hx
    · exact ⟨_, hc.1, by rw [hx]⟩

theorem mainLoop_ts (P : Timeval → Prop) (st : State) (rs : List RecvResult) (h0 : P st.tv)
    (h : ∀ tv ∈ observedTimestamps rs, P tv) :
    ∀ x ∈ records (mainLoop st rs).trace, ∃ tv, P tv ∧ x.ts = tsOf tv := by
  induction rs generalizing st with
  | nil => simp [mainLoop, records]
  | cons r rs ih =>
    unfold mainLoop
    by_cases hn : r.nbytes < 0
    · simp [hn, records]
    · unfold observedTimestamps at h
      simp only [hn, if_false] at h
      have hi := iteration_ts P st r h0 (fun tv htv => h tv (List.mem_append_left _ htv))
      simp only [hn, if_false, records_append, List.mem_append]
      rintro x (hx | hx)
      · exact hi.2 x hx
      · exact ih _ hi.1 (fun tv htv => h tv (List.mem_append_right _ htv)) x hx

theorem tsOf_mono (a b : Timeval) (ha2 : 0 ≤ a.tv_usec)
    (ha3 : a.tv_usec < 1000000) (hb2 : 0 ≤ b.tv_usec) (hb3 : b.tv_usec < 1000000)
    (hle : a.tv_sec < b.tv_sec ∨ (a.tv_sec = b.tv_sec ∧ a.tv_usec ≤ b.tv_usec))
    (hw : (a.tv_usec.tdiv 1000 + a.tv_sec * 1000) / 4294967296 =
      (b.tv_usec.tdiv 1000 + b.tv_sec * 1000) / 4294967296) :
    tsOf a ≤ tsOf b := by
  unfold tsOf
  rw [Int.tdiv_eq_ediv ha2 (by decide)] at hw ⊢
  rw [Int.tdiv_eq_ediv hb2 (by decide)] at hw ⊢
  apply Int.toNat_le_toNat
  omega

theorem mainLoop_error (st : State) (pre : List RecvResult) (r : RecvResult)
    (post : List RecvResult) (hpre : ∀ x ∈ pre, 0 ≤ x.nbytes) (hr : r.nbytes < 0) :
    (mainLoop st (pre ++ r :: post)).status = some 0 ∧
      (mainLoop st (pre ++ r :: post)).trace = (mainLoop st pre).trace ∧
      (mainLoop st (pre ++ r :: post)).calls = pre.length + 1 := by
  induction pre generalizing st with
  | nil => simp [mainLoop, hr]
  | cons p pre ih =>
    have hp : ¬ p.nbytes < 0 := not_lt.2 (hpre p (List.mem_cons_self _ _))
    have ih2 := ih (iteration st p).1 (fun x hx => hpre x (List.mem_cons_of_mem _ hx))
    rw [List.cons_append]
    unfold mainLoop
    simp only [hp, if_false, ih2.1, ih2.2.1, ih2.2.2, List.length_cons, and_self]

theorem received_of_all_ok (rs : List RecvResult) (h : ∀ x ∈ rs, 0 ≤ x.nbytes) :
    received rs = rs := by
  unfold received
  rw [List.takeWhile_eq_self_iff]
  intro x hx
  simpa using h x hx

theorem main_ifname (av : List String) (env : Env) :
    (main av env).ifname = selectIfname av := by
  unfold main
  dsimp only
  repeat' split
  all_goals rfl

theorem tsOf_cast (tv : Timeval) :
    (tsOf tv : Int) = (tv.tv_usec.tdiv 1000 + tv.tv_sec * 1000) % 4294967296 := by
  unfold tsOf
  exact Int.toNat_of_nonneg (Int.emod_nonneg _ (by decide))

theorem mainLoop_drop_id (st : State) (rs : List RecvResult) :
    ∀ r ∈ recordsAt Site.drop (mainLoop st rs).trace, r.can_id = PID_DROP := by
  intro r hr
  have h := mainLoop_drop_records st rs
  have hm : (r.can_id, r.data) ∈
      (recordsAt Site.drop (mainLoop st rs).trace).map (fun r => (r.can_id, r.data)) :=
    List.mem_map_of_mem _ hr
  rw [h] at hm
  obtain ⟨s, _, hs⟩ := List.mem_map.1 hm
  exact (congrArg Prod.fst hs).symm

theorem dropPayload_decode (s : Nat) (h : s < U32) :
    leValue ((dropPayload s).take 4) = s ∧ (dropPayload s).drop 4 = [0, 0, 0, 0] := by
  have h4 : (leBytes 4 s).length = 4 := by simp [leBytes]
  unfold dropPayload
  constructor
  · rw [List.take_append_of_le_length (by omega), List.take_of_length_le (by omega),
      leValue_leBytes]
    exact Nat.mod_eq_of_lt h
  · rw [List.drop_append_of_le_length (by omega), List.drop_of_length_le (by omega)]
    rfl

/-! ## Verified claims -/

/-- Claim C1 (code defect): on the scenario of the specification (drop-counter samples 5 and
then 5) the loop writes two DROP records, each with count 5, whereas the tracked-baseline
reference writes a single DROP record with count 5. -/
theorem drop_records_on_repeated_sample :
    observedSamples scenarioRun = [5, 5] ∧
    (recordsAt Site.drop (mainLoop (initState ⟨0, 0⟩) scenarioRun).trace).map (fun r => r.data) =
      [dropPayload 5, dropPayload 5] ∧
    (refDropDeltas 0 (observedSamples scenarioRun)).map dropPayload = [dropPayload 5] := by
  decide

/-- Claim C2 (claim as stated fails): a successful first receive without ancillary data makes
the data record the first record of the output, and no START_TIME marker is written. -/
theorem start_marker_absent_counterexample :
    (∀ r ∈ bareRun, 0 ≤ r.nbytes) ∧
    (records (mainLoop (initState ⟨0, 0⟩) bareRun).trace).head? =
      some ⟨0, 0x101, [1, 2, 3, 4, 5, 6, 7, 8]⟩ ∧
    (recordsAt Site.start (mainLoop (initState ⟨0, 0⟩) bareRun).trace).length = 0 ∧
    ¬ ((records (mainLoop (initState ⟨0, 0⟩) bareRun).trace).head?.map (fun r => r.can_id) =
          some PID_START_TIME ∧
        (recordsAt Site.start (mainLoop (initState ⟨0, 0⟩) bareRun).trace).length = 1) := by
  decide

/-- Claim C2 (amended): when the first receive succeeds and carries a time stamp, preceded
in that receive only by socket-level control messages that are not time stamps and whose
overflow samples are zero, the first call on the output is the write of the START_TIME marker
built from that time stamp, and exactly one START_TIME marker is written in the whole run.
Every START_TIME marker has identifier 0x8000 and no run writes more than one. -/
theorem start_marker_first_and_unique (tv0 : Timeval) (r : RecvResult)
    (rest : List RecvResult) (pre : List Cmsg) (c : Cmsg) (post : List Cmsg)
    (hr : 0 ≤ r.nbytes) (hc : r.cmsgs = pre ++ c :: post)
    (hpre : ∀ d ∈ pre, d.cmsg_level = SOL_SOCKET ∧ d.cmsg_type ≠ SO_TIMESTAMP ∧
      (d.cmsg_type = SO_RXQ_OVFL → d.u32Data % U32 = 0))
    (hl : c.cmsg_level = SOL_SOCKET) (ht : c.cmsg_type = SO_TIMESTAMP) :
    (mainLoop (initState tv0) (r :: rest)).trace.head? =
        some (Event.write Site.start
          ⟨tsOf c.tvData, PID_START_TIME, timevalBytes c.tvData⟩) ∧
      (recordsAt Site.start (mainLoop (initState tv0) (r :: rest)).trace).length = 1 ∧
      (∀ x ∈ recordsAt Site.start (mainLoop (initState tv0) (r :: rest)).trace,
        x.can_id = PID_START_TIME) ∧
      (∀ (tv1 : Timeval) (rs : List RecvResult),
        (recordsAt Site.start (mainLoop (initState tv1) rs).trace).length ≤ 1) := by
  have hfirst : (initState tv0).first ≠ 0 := by simp [initState]
  have hloop : (cmsgLoop (initState tv0) r.cmsgs).2 =
      Event.write Site.start ⟨tsOf c.tvData, PID_START_TIME, timevalBytes c.tvData⟩ ::
        (cmsgLoop { initState tv0 with tv := c.tvData, first := 0 } post).2 := by
    rw [hc, cmsgLoop_skip (initState tv0) pre (c :: post) rfl hpre]
    exact cmsgLoop_timestamp_first (initState tv0) c post hfirst hl ht
  have hhead := mainLoop_head (initState tv0) r rest _ hr
    (iteration_head (initState tv0) r _ _ hloop)
  have hcount := mainLoop_start_count (initState tv0) (r :: rest)
  have hpos := recordsAt_length_pos_of_head _ _ _ hhead
  have hflag : startFlag (initState tv0) = 1 := rfl
  refine ⟨hhead, by omega, mainLoop_start_id _ _, ?_⟩
  intro tv1 rs
  have h1 := mainLoop_start_count (initState tv1) rs
  have h2 : startFlag (initState tv1) = 1 := rfl
  omega

/-- Instance of the amended claim C2 on the scenario of the specification. -/
theorem start_marker_first_and_unique_witness :
    (mainLoop (initState ⟨7, 7⟩) scenarioRun).trace.head? =
        some (Event.write Site.start ⟨1000, PID_START_TIME, [1, 0, 0, 0, 0, 0, 0, 0]⟩) ∧
      (recordsAt Site.start (mainLoop (initState ⟨7, 7⟩) scenarioRun).trace).length = 1 :=
  have h := start_marker_first_and_unique ⟨7, 7⟩ ⟨16, [tsMsg 1 0], frameA⟩
    [⟨16, [tsMsg 1 200000, ovflMsg 5], frameB⟩, ⟨16, [tsMsg 3 400000, ovflMsg 5], frameC⟩]
    [] (tsMsg 1 0) [] (by decide) rfl (by simp) rfl rfl
  ⟨h.1, h.2.1⟩

/-- Claim C3: the data records written during a run are, in order, exactly the identifiers
and data bytes of the frames received (one per successful receive, so their number is the
number of receives), and the output is the concatenation, receive by receive, of the calls
made by the control message loop of that receive (which never writes a data record) followed
by the data record of that receive. -/
theorem frames_logged_in_order (tv0 : Timeval) (rs : List RecvResult) :
    (recordsAt Site.data (mainLoop (initState tv0) rs).trace).map (fun x => (x.can_id, x.data)) =
        (received rs).map (fun r => (r.frame.can_id, r.frame.data)) ∧
      (recordsAt Site.data (mainLoop (initState tv0) rs).trace).length = (received rs).length ∧
      (∃ blocks : List (List Event), (mainLoop (initState tv0) rs).trace = blocks.flatten ∧
        List.Forall₂ (fun r b => ∃ s : State, b = (cmsgLoop s r.cmsgs).2 ++
          [Event.write Site.data
            ⟨tsOf (cmsgLoop s r.cmsgs).1.tv, r.frame.can_id, r.frame.data⟩])
          (received rs) blocks) ∧
      (∀ (s : State) (cs : List Cmsg), recordsAt Site.data (cmsgLoop s cs).2 = []) ∧
      ((∀ r ∈ rs, 0 ≤ r.nbytes) → received rs = rs) := by
  have h1 := mainLoop_data_records (initState tv0) rs
  refine ⟨h1, ?_, mainLoop_blocks (initState tv0) rs rfl, cmsgLoop_no_data,
    received_of_all_ok rs⟩
  have h2 := congrArg List.length h1
  simpa using h2

/-- Claim C4 (code defect): in a run whose two data records are ten seconds apart the loop
issues no flush at all; the watermark stays zero, so the guarded flush never fires. -/
theorem no_periodic_flush_on_ten_second_span :
    (mainLoop (initState ⟨0, 0⟩) spanRun).trace =
        [Event.write Site.start ⟨10000, PID_START_TIME, [10, 0, 0, 0, 0, 0, 0, 0]⟩,
         Event.write Site.data ⟨10000, 0x101, [1, 2, 3, 4, 5, 6, 7, 8]⟩,
         Event.write Site.data ⟨20000, 0x102, [11, 12, 13, 14, 15, 16, 17, 18]⟩] ∧
      Event.flush ∉ (mainLoop (initState ⟨0, 0⟩) spanRun).trace ∧
      (mainLoop (initState ⟨0, 0⟩) spanRun).final.last_tv = 0 := by
  decide

/-- Claim C5 (code defect): when a receive fails after any number of successful receives,
the loop stops without a further record (whatever would have been received afterwards), but
the status returned by main is 0. -/
theorem recv_error_returns_zero (st : State) (pre : List RecvResult) (r : RecvResult)
    (post : List RecvResult) (hpre : ∀ x ∈ pre, 0 ≤ x.nbytes) (hr : r.nbytes < 0) :
    (mainLoop st (pre ++ r :: post)).status = some 0 ∧
      (mainLoop st (pre ++ r :: post)).trace = (mainLoop st pre).trace ∧
      (mainLoop st (pre ++ r :: post)).calls = pre.length + 1 :=
  mainLoop_error st pre r post hpre hr

/-- Instance of C5: two receives, a receive error, then data that is never read. -/
theorem recv_error_returns_zero_witness :
    ((mainLoop (initState ⟨0, 0⟩) (bareRun ++ recvError :: scenarioRun)).status = some 0 ∧
      (mainLoop (initState ⟨0, 0⟩) (bareRun ++ recvError :: scenarioRun)).trace =
        (mainLoop (initState ⟨0, 0⟩) bareRun).trace ∧
      (mainLoop (initState ⟨0, 0⟩) (bareRun ++ recvError :: scenarioRun)).calls = 3) ∧
    (main ["cand"] (okEnv (bareRun ++ recvError :: scenarioRun))).status = some 0 :=
  ⟨recv_error_returns_zero (initState ⟨0, 0⟩) bareRun recvError scenarioRun (by decide)
    (by decide), by decide⟩

/-- Claim C7 (code defect): with an interface argument on the command line the name used is
the program name (element 0 of the argument vector), not the argument; for the command line
of the usage text, cand can1, the program looks up an interface called cand. -/
theorem ifname_is_program_name (prog arg : String) (rest : List String) (env : Env) :
    (main (prog :: arg :: rest) env).ifname = prog ∧
      (main ["cand", "can1"] env).ifname = "cand" ∧
      (main ["cand"] env).ifname = "can0" := by
  refine ⟨?_, ?_, ?_⟩ <;> rw [main_ifname] <;> simp [selectIfname]

/-- Claim C8: every record written in a run carries, as its 32-bit time stamp, the value
`(tv_usec / 1000 + tv_sec * 1000) mod 2^32` of a timeval that is either the initial contents
of `tv` or a time stamp delivered during the run; the data record of a receive uses the
latest time stamp delivered up to and including that receive; and for two timevals in
lexicographic order with microseconds in `[0, 1000000)` whose millisecond values fall into
the same 2^32-aligned window the stored time stamps are in the same order. -/
theorem timestamp_derivation_and_order :
    (∀ (tv0 : Timeval) (rs : List RecvResult),
      ∀ r ∈ records (mainLoop (initState tv0) rs).trace,
        ∃ tv : Timeval, (tv = tv0 ∨ tv ∈ observedTimestamps rs) ∧
          (r.ts : Int) = (tv.tv_usec.tdiv 1000 + tv.tv_sec * 1000) % 4294967296) ∧
    (∀ (st : State) (r : RecvResult),
      (recordsAt Site.data (iteration st r).2).map (fun x => (x.ts : Int)) =
        [((latestTv st.tv r.cmsgs).tv_usec.tdiv 1000 +
          (latestTv st.tv r.cmsgs).tv_sec * 1000) % 4294967296]) ∧
    (∀ a b : Timeval, 0 ≤ a.tv_usec → a.tv_usec < 1000000 →
      0 ≤ b.tv_usec → b.tv_usec < 1000000 →
      (a.tv_sec < b.tv_sec ∨ (a.tv_sec = b.tv_sec ∧ a.tv_usec ≤ b.tv_usec)) →
      (a.tv_usec.tdiv 1000 + a.tv_sec * 1000) / 4294967296 =
        (b.tv_usec.tdiv 1000 + b.tv_sec * 1000) / 4294967296 →
      tsOf a ≤ tsOf b) := by
  refine ⟨?_, ?_, ?_⟩
  · intro tv0 rs r hr
    obtain ⟨tv, htv, hts⟩ := mainLoop_ts (fun tv => tv = tv0 ∨ tv ∈ observedTimestamps rs)
      (initState tv0) rs (Or.inl rfl) (fun tv h => Or.inr h) r hr
    exact ⟨tv, htv, by rw [hts, tsOf_cast]⟩
  · intro st r
    rw [iteration_data_records, cmsgLoop_tv_latest]
    simp [tsOf_cast]
  · intro a b ha2 ha3 hb2 hb3 hle hw
    exact tsOf_mono a b ha2 ha3 hb2 hb3 hle hw

/-- Instance of C8: 1.999999 s and 2.000000 s are stored as 1999 and 2000. -/
theorem timestamp_derivation_and_order_witness :
    tsOf ⟨1, 999999⟩ ≤ tsOf ⟨2, 0⟩ ∧ tsOf ⟨1, 999999⟩ = 1999 ∧ tsOf ⟨2, 0⟩ = 2000 :=
  ⟨timestamp_derivation_and_order.2.2 ⟨1, 999999⟩ ⟨2, 0⟩ (by decide) (by decide) (by decide)
    (by decide) (Or.inl (by decide)) (by decide), by decide, by decide⟩

/-- Claim C9: the stored previous drop count is 0 in every state the loop reaches, so a
control message with an overflow sample makes the loop write a DROP record exactly when the
sample is not 0, and the count in the record is the sample itself; over a whole run the
DROP records are, in order, the nonzero samples seen, each with identifier 0x8001, the
sample in the first four data bytes and zeros in the other four. -/
theorem stale_drop_baseline (tv0 : Timeval) (rs : List RecvResult) :
    (∀ cs : List Cmsg, (cmsgLoop (mainLoop (initState tv0) rs).final cs).1.last_drcnt = 0) ∧
    (∀ (cs : List Cmsg) (c : Cmsg),
      recordsAt Site.drop (cmsgBody (cmsgLoop (mainLoop (initState tv0) rs).final cs).1 c).2 =
        if c.cmsg_type = SO_RXQ_OVFL ∧ c.u32Data % U32 ≠ 0 then
          [⟨tsOf (cmsgLoop (mainLoop (initState tv0) rs).final cs).1.tv, PID_DROP,
            dropPayload (c.u32Data % U32)⟩]
        else []) ∧
    (recordsAt Site.drop (mainLoop (initState tv0) rs).trace).map (fun r => (r.can_id, r.data)) =
      ((observedSamples rs).filter (fun s => decide (s ≠ 0))).map
        (fun s => (PID_DROP, dropPayload s)) ∧
    (∀ s ∈ observedSamples rs,
      leValue ((dropPayload s).take 4) = s ∧ (dropPayload s).drop 4 = [0, 0, 0, 0]) := by
  have h0 : ∀ cs : List Cmsg,
      (cmsgLoop (mainLoop (initState tv0) rs).final cs).1.last_drcnt = 0 := by
    intro cs
    rw [cmsgLoop_last_drcnt, mainLoop_last_drcnt]
    rfl
  refine ⟨h0, ?_, ?_, ?_⟩
  · intro cs c
    rw [cmsgBody_drop_records, h0 cs]
    by_cases h : c.cmsg_type = SO_RXQ_OVFL ∧ c.u32Data % U32 ≠ 0
    · simp only [h, and_self, if_true, Nat.sub_zero, ne_eq, not_false_eq_true]
      rw [Nat.add_mod_right, Nat.mod_mod]
    · simp only [h, if_false]
  · have h := mainLoop_drop_records (initState tv0) rs
    have hz : (initState tv0).last_drcnt = 0 := rfl
    rw [hz] at h
    rw [h]
    apply List.map_congr_left
    intro s hs
    have hlt := observedSamples_lt rs s (List.mem_of_mem_filter hs)
    simp only [Nat.sub_zero, Nat.add_mod_right, Nat.mod_eq_of_lt hlt]
  · intro s hs
    exact dropPayload_decode s (observedSamples_lt rs s hs)

/-- Claim C10: the flush watermark is 0 in every state the loop reaches; in the output of
any run the call that follows the write of a record is a flush exactly when the record was
written as a DROP marker, every flush directly follows the write of a DROP marker, and the
records written as DROP markers carry the identifier 0x8001. -/
theorem flush_only_after_drop (tv0 : Timeval) (rs : List RecvResult) :
    (∀ cs : List Cmsg, (cmsgLoop (mainLoop (initState tv0) rs).final cs).1.last_tv = 0) ∧
    (∀ (pre post : List Event) (s : Site) (r : Rec),
      (mainLoop (initState tv0) rs).trace = pre ++ Event.write s r :: post →
        (post.head? = some Event.flush ↔ s = Site.drop)) ∧
    (∀ (pre post : List Event),
      (mainLoop (initState tv0) rs).trace = pre ++ Event.flush :: post →
        ∃ (pre1 : List Event) (r : Rec), pre = pre1 ++ [Event.write Site.drop r]) ∧
    (∀ r ∈ recordsAt Site.drop (mainLoop (initState tv0) rs).trace, r.can_id = PID_DROP) := by
  have hd := mainLoop_dropFlushed (initState tv0) rs rfl
  refine ⟨?_, hd.after_write, hd.before_flush, mainLoop_drop_id _ _⟩
  intro cs
  rw [cmsgLoop_last_tv]
  exact mainLoop_last_tv (initState tv0) rs rfl

end Cand
